import Mathlib

/-!
Shallow embedding of the DS1338 real-time-clock I2C device model
(src/rust/hw/rtc/ds1338/src/lib.rs).

Machine integers are modelled as Nat (u8: values taken modulo 256 where the
source truncates) and Int (i32/i64 fields of the C tm structure and the
seconds offset).  The Rust cast x as u8 on an i32 is two's-complement
truncation, i.e. the nonnegative representative of x modulo 256; the Rust
remainder operator on i32 is truncating remainder, modelled by Int.tmod.
The external time collaborators qemu_get_timedate and qemu_timedate_diff
live outside this crate (C code of the surrounding project); they are
modelled abstractly as a TimeSource record, with their documented semantics
stated as hypotheses where a claim needs them.
-/

namespace DS1338

/-- Size of the register file: 64 addressable bytes. -/
def NVRAM_SIZE : Nat := 64

/-- Bit 6 of the hour register: 12-hour-mode flag (source constant HOURS_12 = 0x40). -/
def HOURS_12 : Nat := 0x40

/-- Bit 5 of the hour register: AM/PM flag in 12-hour mode (source constant HOURS_PM = 0x20). -/
def HOURS_PM : Nat := 0x20

/-- Bit 5 of the control register: oscillator-fail flag (source constant CTRL_OSF = 0x20). -/
def CTRL_OSF : Nat := 0x20

/-- Source fn to_bcd: packed-BCD encoding of a u8.  The u8 arithmetic wraps
modulo 256 (for the in-range inputs 0..99 the modulus is inert). -/
def to_bcd (x : Nat) : Nat := ((x / 10) * 16 + x % 10) % 256

/-- Source fn from_bcd: packed-BCD decoding of a u8 (never exceeds 165, no wrap). -/
def from_bcd (x : Nat) : Nat := (x / 16) * 10 + x % 16

/-- Rust cast of an Int (i32/i64) to u8: two's-complement truncation modulo 256. -/
def intToU8 (x : Int) : Nat := (x % 256).toNat

/-- Calendar breakdown, the fields of the C tm structure the device uses. -/
structure Tm where
  tm_sec : Int
  tm_min : Int
  tm_hour : Int
  tm_wday : Int
  tm_mday : Int
  tm_mon : Int
  tm_year : Int
deriving DecidableEq, Repr

/-- Modelled from the spec: the external time-source collaborator
(qemu_get_timedate / qemu_timedate_diff, C code outside this crate).
Section 6 of the spec: getTimedate off is the wall clock shifted by off
seconds, rendered as a calendar breakdown; timedateDiff b is the signed
number of seconds between breakdown b and the true current time.  Exact
calendar semantics are the collaborator's responsibility, so the record is
abstract; theorems that need the documented round-trip
timedateDiff (getTimedate off) = off take it as a hypothesis. -/
structure TimeSource where
  getTimedate : Int → Tm
  timedateDiff : Tm → Int

/-- Source struct DS1338Inner: the persistent device state. -/
structure DS1338Inner where
  offset : Int
  wday_offset : Nat
  nvram : Fin 64 → Nat
  ptr : Nat
  addr_byte : Bool

/-- Source impl Default for DS1338Inner. -/
def initState : DS1338Inner :=
  { offset := 0, wday_offset := 0, nvram := fun _ => 0, ptr := 0, addr_byte := false }

/-- Hour encoding used by capture_current_time when nvram[2] has HOURS_12 set
(source lines 86-95): 12-o'clock wraparound then AM/PM split. -/
def encodeHour12 (hour : Int) : Nat :=
  let tmp := if hour.tmod 12 = 0 then hour + 12 else hour
  if tmp ≤ 12 then HOURS_12 ||| to_bcd (intToU8 tmp)
  else HOURS_12 ||| HOURS_PM ||| to_bcd (intToU8 (tmp - 12))

/-- Hour decoding used by write_time_register at address 2 (source lines
134-146): 12-hour bytes via AM/PM and 12-o'clock unwrap, else plain BCD. -/
def decodeHour (data : Nat) : Int :=
  if data &&& HOURS_12 ≠ 0 then
    let tmp : Int := from_bcd (data &&& (HOURS_PM - 1))
    let tmp := if data &&& HOURS_PM ≠ 0 then tmp + 12 else tmp
    if tmp.tmod 12 = 0 then tmp - 12 else tmp
  else
    from_bcd (data &&& (HOURS_12 - 1))

/-- Source fn capture_current_time: latch the current (offset-shifted) time
into storage bytes 0..6.  The hour mode bit is read from the old nvram[2]. -/
def capture_current_time (ts : TimeSource) (s : DS1338Inner) : DS1338Inner :=
  let now := ts.getTimedate s.offset
  let hourByte :=
    if s.nvram 2 &&& HOURS_12 ≠ 0 then encodeHour12 now.tm_hour
    else to_bcd (intToU8 now.tm_hour)
  let nv := Function.update s.nvram 0 (to_bcd (intToU8 now.tm_sec))
  let nv := Function.update nv 1 (to_bcd (intToU8 now.tm_min))
  let nv := Function.update nv 2 hourByte
  let nv := Function.update nv 3 (intToU8 ((now.tm_wday + (s.wday_offset : Int)).tmod 7 + 1))
  let nv := Function.update nv 4 (to_bcd (intToU8 now.tm_mday))
  let nv := Function.update nv 5 (to_bcd (intToU8 (now.tm_mon + 1)))
  let nv := Function.update nv 6 (to_bcd (intToU8 (now.tm_year - 100)))
  { s with nvram := nv }

/-- Source fn inc_regptr: ptr := (ptr + 1) & 63; a wrap to 0 re-latches the
clock.  The i32 bit-and with NVRAM_SIZE - 1 is &&& 63 on the Nat model. -/
def inc_regptr (ts : TimeSource) (s : DS1338Inner) : DS1338Inner :=
  let s1 := { s with ptr := (s.ptr + 1) &&& 63 }
  if s1.ptr = 0 then capture_current_time ts s1 else s1

/-- Source fn get_reg: nvram[ptr].  The source indexes the 64-byte array
directly (an out-of-range ptr would abort); the guard mirrors the bounds
obligation and is never hit on reachable states (ptr stays below 64). -/
def get_reg (s : DS1338Inner) : Nat :=
  if h : s.ptr < 64 then s.nvram ⟨s.ptr, h⟩ else 0

/-- Source fn set_ptr: ptr := data & 63. -/
def set_ptr (data : Nat) (s : DS1338Inner) : DS1338Inner :=
  { s with ptr := data &&& 63 }

/-- Source fn write_time_register: read the breakdown at the current offset,
mutate one field of it by register address (address 3 instead recomputes
wday_offset and leaves the breakdown alone), then store
timedateDiff of the resulting breakdown as the new offset.  The source runs
the diff on every address, including 3 and the unreachable default arm. -/
def write_time_register (ts : TimeSource) (data : Nat) (s : DS1338Inner) : DS1338Inner :=
  let now := ts.getTimedate s.offset
  let res : Tm × Nat :=
    match s.ptr with
    | 0 => ({ now with tm_sec := (from_bcd (data &&& 0x7f) : Int) }, s.wday_offset)
    | 1 => ({ now with tm_min := (from_bcd (data &&& 0x7f) : Int) }, s.wday_offset)
    | 2 => ({ now with tm_hour := decodeHour data }, s.wday_offset)
    | 3 =>
      let user_wday : Int := ((data &&& 7 : Nat) : Int) - 1
      (now, intToU8 ((user_wday - now.tm_wday + 7).tmod 7))
    | 4 => ({ now with tm_mday := (from_bcd (data &&& 0x3f) : Int) }, s.wday_offset)
    | 5 => ({ now with tm_mon := (from_bcd (data &&& 0x1f) : Int) - 1 }, s.wday_offset)
    | 6 => ({ now with tm_year := (from_bcd data : Int) + 100 }, s.wday_offset)
    | _ => (now, s.wday_offset)
  { s with wday_offset := res.2, offset := ts.timedateDiff res.1 }

/-- Source fn write_control_register: mask the byte to 0xB3, then keep the
OSF bit only when both the incoming byte and the stored byte have it
(0xDF is the u8 complement of CTRL_OSF).  The bounds guard mirrors the
array-indexing obligation as in get_reg. -/
def write_control_register (data : Nat) (s : DS1338Inner) : DS1338Inner :=
  if h : s.ptr < 64 then
    let p : Fin 64 := ⟨s.ptr, h⟩
    let d1 := data &&& 0xB3
    let d2 := (d1 &&& 0xDF) ||| (d1 &&& s.nvram p &&& CTRL_OSF)
    { s with nvram := Function.update s.nvram p d2 }
  else s

/-- Source fn write_nvram: nvram[ptr] := data, with the same bounds guard. -/
def write_nvram (data : Nat) (s : DS1338Inner) : DS1338Inner :=
  if h : s.ptr < 64 then
    { s with nvram := Function.update s.nvram ⟨s.ptr, h⟩ data }
  else s

/-- I2C acknowledgement result returned by send. -/
inductive I2CResult
  | ACK
  | NACK
deriving DecidableEq, Repr

/-- I2C bus events delivered to the device (the arms the source matches on,
plus a catch-all for the remaining protocol events). -/
inductive I2CEvent
  | START_RECV
  | START_SEND
  | FINISH
  | NACK_EV
deriving DecidableEq, Repr

/-- Source fn DS1338State::send: an address byte sets the pointer, otherwise
dispatch the data byte by pointer range and advance; always acknowledge. -/
def send (ts : TimeSource) (data : Nat) (s : DS1338Inner) : DS1338Inner × I2CResult :=
  if s.addr_byte then
    ({ set_ptr data s with addr_byte := false }, I2CResult.ACK)
  else
    (inc_regptr ts
      (if s.ptr < 7 then write_time_register ts data s
       else if s.ptr = 7 then write_control_register data s
       else write_nvram data s),
     I2CResult.ACK)

/-- Source fn DS1338State::recv: return the current register, then advance. -/
def recv (ts : TimeSource) (s : DS1338Inner) : Nat × DS1338Inner :=
  (get_reg s, inc_regptr ts s)

/-- Source fn DS1338State::event: a receive start latches the clock, a send
start opens the addressing phase; the handler always answers START_RECV. -/
def event (ts : TimeSource) (e : I2CEvent) (s : DS1338Inner) : DS1338Inner × I2CEvent :=
  match e with
  | I2CEvent.START_RECV => (capture_current_time ts s, I2CEvent.START_RECV)
  | I2CEvent.START_SEND => ({ s with addr_byte := true }, I2CEvent.START_RECV)
  | _ => (s, I2CEvent.START_RECV)

/-- Source fn DS1338State::reset_hold: clear every field of the inner state. -/
def reset_hold (s : DS1338Inner) : DS1338Inner :=
  { s with offset := 0, wday_offset := 0, ptr := 0, addr_byte := false,
           nvram := fun _ => 0 }

/-- Iterate inc_regptr n times (the repeated pointer advance of claim C5). -/
def advanceN (ts : TimeSource) : Nat → DS1338Inner → DS1338Inner
  | 0, s => s
  | n + 1, s => advanceN ts n (inc_regptr ts s)

/-- Whether a single inc_regptr from s wraps the pointer to 0 and hence
triggers capture_current_time (the guard of the if in inc_regptr). -/
def incWraps (s : DS1338Inner) : Bool := (s.ptr + 1) &&& 63 == 0

/-- Number of the first n successive inc_regptr applications from s whose
increment wraps the pointer to 0 (i.e. that trigger capture_current_time). -/
def wrapCount (ts : TimeSource) : Nat → DS1338Inner → Nat
  | 0, _ => 0
  | n + 1, s => (if incWraps s then 1 else 0) + wrapCount ts n (inc_regptr ts s)

/-- Pointer-only shadow of wrapCount, used to evaluate it in closed form. -/
def pureWrap : Nat → Nat → Nat
  | _, 0 => 0
  | p, n + 1 => (if (p + 1) % 64 = 0 then 1 else 0) + pureWrap ((p + 1) % 64) n

/-- Per-address mask of the data-byte bits write_time_register consumes:
0x7f for seconds, minutes and hours, 0x07 for the weekday, 0x3f for the
day of month, 0x1f for the month, the full byte for the year, and nothing
on the default arm. -/
def timeWriteMask : Nat → Nat
  | 0 => 0x7f
  | 1 => 0x7f
  | 2 => 0x7f
  | 3 => 0x07
  | 4 => 0x3f
  | 5 => 0x1f
  | 6 => 0xff
  | _ => 0

/-- States reachable from the initial state by the exported operations
(pointer write, pointer advance, register read, bus send and receive,
bus events, reset), for a fixed time source. -/
inductive Reach (ts : TimeSource) : DS1338Inner → Prop
  | init : Reach ts initState
  | setp (d : Nat) {s : DS1338Inner} : Reach ts s → Reach ts (set_ptr d s)
  | adv {s : DS1338Inner} : Reach ts s → Reach ts (inc_regptr ts s)
  | snd (d : Nat) {s : DS1338Inner} : Reach ts s → Reach ts (send ts d s).1
  | rcv {s : DS1338Inner} : Reach ts s → Reach ts (recv ts s).2
  | evt (e : I2CEvent) {s : DS1338Inner} : Reach ts s → Reach ts (event ts e s).1
  | rst {s : DS1338Inner} : Reach ts s → Reach ts (reset_hold s)

/-- Concrete time source used to instantiate theorems: the wall clock is
anchored at weekday index 2 and stores the offset in the seconds field, so
timedateDiff (getTimedate off) = off holds definitionally. -/
def specTS : TimeSource where
  getTimedate off :=
    { tm_sec := off, tm_min := 0, tm_hour := 0, tm_wday := 2,
      tm_mday := 1, tm_mon := 0, tm_year := 100 }
  timedateDiff t := t.tm_sec

/-! Helper lemmas shared by the claim theorems. -/

theorem and63_eq_mod (n : Nat) : n &&& 63 = n % 64 := by
  simpa using Nat.and_pow_two_sub_one_eq_mod n 6

theorem and255_eq_mod (n : Nat) : n &&& 255 = n % 256 := by
  simpa using Nat.and_pow_two_sub_one_eq_mod n 8

theorem and_sub_mask (m k : Nat) {d1 d2 : Nat} (hsub : m &&& k = k)
    (h : d1 &&& m = d2 &&& m) : d1 &&& k = d2 &&& k := by
  rw [← hsub]
  simp only [← Nat.and_assoc]
  rw [h]

theorem capture_ptr (ts : TimeSource) (s : DS1338Inner) :
    (capture_current_time ts s).ptr = s.ptr := rfl

theorem capture_offset (ts : TimeSource) (s : DS1338Inner) :
    (capture_current_time ts s).offset = s.offset := rfl

theorem capture_wday_offset (ts : TimeSource) (s : DS1338Inner) :
    (capture_current_time ts s).wday_offset = s.wday_offset := rfl

theorem capture_addr_byte (ts : TimeSource) (s : DS1338Inner) :
    (capture_current_time ts s).addr_byte = s.addr_byte := rfl

theorem inc_regptr_ptr (ts : TimeSource) (s : DS1338Inner) :
    (inc_regptr ts s).ptr = (s.ptr + 1) % 64 := by
  rw [← and63_eq_mod]
  simp only [inc_regptr]
  split <;> rfl

theorem advanceN_ptr (ts : TimeSource) :
    ∀ (n : Nat) (s : DS1338Inner), s.ptr < 64 →
      (advanceN ts n s).ptr = (s.ptr + n) % 64
  | 0, s, h => by
    simp only [advanceN]
    omega
  | n + 1, s, h => by
    simp only [advanceN]
    rw [advanceN_ptr ts n (inc_regptr ts s) (by rw [inc_regptr_ptr]; omega),
        inc_regptr_ptr]
    omega

theorem wrapCount_eq_pureWrap (ts : TimeSource) :
    ∀ (n : Nat) (s : DS1338Inner), wrapCount ts n s = pureWrap s.ptr n
  | 0, _ => rfl
  | n + 1, s => by
    simp only [wrapCount, pureWrap, incWraps, and63_eq_mod, beq_iff_eq]
    rw [wrapCount_eq_pureWrap ts n, inc_regptr_ptr]

theorem pureWrap_64 : ∀ p : Fin 64, pureWrap p.val 64 = 1 := by decide

theorem capture_nvram_of_le (ts : TimeSource) (s : DS1338Inner) (i : Fin 64)
    (h : 7 ≤ i.val) : (capture_current_time ts s).nvram i = s.nvram i := by
  have hne : ∀ k : Fin 64, k.val < 7 → i ≠ k := by
    intro k hk he
    subst he
    omega
  simp only [capture_current_time]
  rw [Function.update_noteq (hne 6 (by decide)), Function.update_noteq (hne 5 (by decide)),
      Function.update_noteq (hne 4 (by decide)), Function.update_noteq (hne 3 (by decide)),
      Function.update_noteq (hne 2 (by decide)), Function.update_noteq (hne 1 (by decide)),
      Function.update_noteq (hne 0 (by decide))]

theorem capture_nvram_3 (ts : TimeSource) (s : DS1338Inner) :
    (capture_current_time ts s).nvram 3
      = intToU8 (((ts.getTimedate s.offset).tm_wday + (s.wday_offset : Int)).tmod 7 + 1) := by
  simp only [capture_current_time]
  rw [Function.update_noteq (by decide : (3 : Fin 64) ≠ 6),
      Function.update_noteq (by decide : (3 : Fin 64) ≠ 5),
      Function.update_noteq (by decide : (3 : Fin 64) ≠ 4),
      Function.update_same]

theorem inc_regptr_nvram_of_le (ts : TimeSource) (s : DS1338Inner) (i : Fin 64)
    (h : 7 ≤ i.val) : (inc_regptr ts s).nvram i = s.nvram i := by
  simp only [inc_regptr]
  split
  · exact capture_nvram_of_le ts _ i h
  · rfl

theorem send_ptr_lt (ts : TimeSource) (d : Nat) (s : DS1338Inner) :
    (send ts d s).1.ptr < 64 := by
  simp only [send]
  split
  · show d &&& 63 < 64
    rw [and63_eq_mod]
    omega
  · show (inc_regptr ts _).ptr < 64
    rw [inc_regptr_ptr]
    omega

theorem repoint_read (ts : TimeSource) (a : Nat) (s : DS1338Inner) (h : a < 64) :
    (recv ts (send ts a (event ts I2CEvent.START_SEND s).1).1).1 = s.nvram ⟨a, h⟩ := by
  obtain ⟨off, wd, nv, p, ab⟩ := s
  have ha64 : a &&& 63 = a := by
    rw [and63_eq_mod]
    omega
  show get_reg ⟨off, wd, nv, a &&& 63, false⟩ = nv ⟨a, h⟩
  rw [ha64]
  simp only [get_reg]
  rw [dif_pos (show ((⟨off, wd, nv, a, false⟩ : DS1338Inner).ptr < 64) from h)]

theorem wtr_ptr (ts : TimeSource) (data : Nat) (s : DS1338Inner) :
    (write_time_register ts data s).ptr = s.ptr := rfl

theorem wtr_nvram (ts : TimeSource) (data : Nat) (s : DS1338Inner) :
    (write_time_register ts data s).nvram = s.nvram := rfl

theorem wtr_addr_byte (ts : TimeSource) (data : Nat) (s : DS1338Inner) :
    (write_time_register ts data s).addr_byte = s.addr_byte := rfl

theorem wtr3_wday_offset (ts : TimeSource) (s : DS1338Inner) (data : Nat)
    (hp : s.ptr = 3) :
    (write_time_register ts data s).wday_offset
      = intToU8 (((((data &&& 7 : Nat) : Int) - 1)
          - (ts.getTimedate s.offset).tm_wday + 7).tmod 7) := by
  obtain ⟨off, wd, nv, p, ab⟩ := s
  dsimp only at hp ⊢
  subst hp
  rfl

theorem wtr3_offset (ts : TimeSource) (s : DS1338Inner) (data : Nat)
    (hp : s.ptr = 3)
    (hrt : ts.timedateDiff (ts.getTimedate s.offset) = s.offset) :
    (write_time_register ts data s).offset = s.offset := by
  obtain ⟨off, wd, nv, p, ab⟩ := s
  dsimp only at hp hrt ⊢
  subst hp
  exact hrt

/-! Claim theorems. -/

/-- C6: reset, from every state, clears the seconds offset, the weekday
offset, the pointer and the addressing flag, and zeroes all 64 storage
bytes. -/
theorem C6_reset_clears (s : DS1338Inner) :
    (reset_hold s).offset = 0 ∧ (reset_hold s).wday_offset = 0 ∧
    (reset_hold s).ptr = 0 ∧ (reset_hold s).addr_byte = false ∧
    ∀ i : Fin 64, (reset_hold s).nvram i = 0 :=
  ⟨rfl, rfl, rfl, rfl, fun _ => rfl⟩

/-- C3: the 12-hour hour encoding of capture_current_time and the hour
decoding of write_time_register at address 2 are mutually inverse on wall
hours 0..23, and wall hours 0 and 12 both display as 12, with the AM/PM
bit clear for hour 0 and set for hour 12. -/
theorem C3_hour_roundtrip :
    (∀ h : Fin 24, decodeHour (encodeHour12 (h.val : Int)) = (h.val : Int)) ∧
    encodeHour12 0 = HOURS_12 ||| to_bcd 12 ∧
    encodeHour12 12 = HOURS_12 ||| HOURS_PM ||| to_bcd 12 := by decide

/-- C5: from any state whose pointer is in bounds, 64 pointer advances
return the pointer to its starting value, and exactly one of those 64
advances wraps the pointer to 0 and so triggers capture_current_time. -/
theorem C5_advance64 (ts : TimeSource) (s : DS1338Inner) (h : s.ptr < 64) :
    (advanceN ts 64 s).ptr = s.ptr ∧ wrapCount ts 64 s = 1 := by
  constructor
  · rw [advanceN_ptr ts 64 s h]
    omega
  · rw [wrapCount_eq_pureWrap]
    exact pureWrap_64 ⟨s.ptr, h⟩

/-- Witness for C5 at the initial state. -/
theorem C5_advance64_witness :
    (advanceN specTS 64 initState).ptr = initState.ptr ∧
    wrapCount specTS 64 initState = 1 :=
  C5_advance64 specTS initState (by decide)

/-- C1 counterexample: writing 0xFF to the control register while the
stored oscillator-fail bit is 0 leaves bit 5 clear, not set, refuting the
claim that a write with bit 5 set always leaves the stored bit set. -/
theorem C1_counterexample :
    ((write_control_register 0xFF { initState with ptr := 7 }).nvram 7).testBit 5 = false ∧
    (0xFF : Nat).testBit 5 = true ∧
    (({ initState with ptr := 7 } : DS1338Inner).nvram 7).testBit 5 = false := by
  decide

/-- C1 amended: after write_control_register, bit 5 of storage[pointer] is
set iff it was set before AND the incoming byte has bit 5 set: an ordinary
register write can clear the oscillator-fail bit or leave a set bit set,
but can never set it when it was clear. -/
theorem C1_osf_latch (s : DS1338Inner) (data : Nat) (h : s.ptr < 64) :
    ((write_control_register data s).nvram ⟨s.ptr, h⟩).testBit 5
      = ((s.nvram ⟨s.ptr, h⟩).testBit 5 && data.testBit 5) := by
  simp only [write_control_register, CTRL_OSF]
  rw [dif_pos h]
  simp only [Function.update_same, Nat.testBit_or, Nat.testBit_and]
  cases hd : data.testBit 5 <;> cases ho : (s.nvram ⟨s.ptr, h⟩).testBit 5 <;> decide

/-- Witness for C1_osf_latch: pointer 7, stored byte 0, data 0xFF. -/
theorem C1_osf_latch_witness :
    ((write_control_register 0xFF { initState with ptr := 7 }).nvram
        ⟨({ initState with ptr := 7 } : DS1338Inner).ptr, by decide⟩).testBit 5
      = ((({ initState with ptr := 7 } : DS1338Inner).nvram
            ⟨({ initState with ptr := 7 } : DS1338Inner).ptr, by decide⟩).testBit 5
          && (0xFF : Nat).testBit 5) :=
  C1_osf_latch { initState with ptr := 7 } 0xFF (by decide)

/-- C8: capture_current_time writes only storage bytes 0 through 6; the
control byte, every nonvolatile byte at addresses 7 and above, the pointer,
the seconds offset, the weekday offset and the addressing flag are
unchanged. -/
theorem C8_capture_frame (ts : TimeSource) (s : DS1338Inner) (i : Fin 64)
    (h : 7 ≤ i.val) :
    (capture_current_time ts s).nvram i = s.nvram i ∧
    (capture_current_time ts s).ptr = s.ptr ∧
    (capture_current_time ts s).offset = s.offset ∧
    (capture_current_time ts s).wday_offset = s.wday_offset ∧
    (capture_current_time ts s).addr_byte = s.addr_byte :=
  ⟨capture_nvram_of_le ts s i h, rfl, rfl, rfl, rfl⟩

/-- C2: a write_time_register at pointer 3 sets the weekday offset to
(user weekday - wall weekday + 7) mod 7, where the user weekday is the low
three bits of the data byte minus 1 and the wall weekday is the time
source weekday at the current offset, and the stored seconds offset keeps
its value (the hypotheses state the documented collaborator semantics
diff(now(off)) = off and the 0..6 weekday range of the breakdown). -/
theorem C2_weekday_write (ts : TimeSource) (s : DS1338Inner) (data : Nat)
    (hp : s.ptr = 3)
    (hw0 : 0 ≤ (ts.getTimedate s.offset).tm_wday)
    (hw6 : (ts.getTimedate s.offset).tm_wday ≤ 6)
    (hrt : ts.timedateDiff (ts.getTimedate s.offset) = s.offset) :
    (write_time_register ts data s).wday_offset
      = (((((data &&& 7 : Nat) : Int) - 1)
          - (ts.getTimedate s.offset).tm_wday + 7) % 7).toNat
    ∧ (write_time_register ts data s).offset = s.offset := by
  refine ⟨?_, wtr3_offset ts s data hp hrt⟩
  rw [wtr3_wday_offset ts s data hp]
  have hn : (0 : Int) ≤ ((data &&& 7 : Nat) : Int) := Int.natCast_nonneg _
  rw [Int.tmod_eq_emod (by omega) (by norm_num)]
  simp only [intToU8]
  omega

/-- Witness for C2: data byte 5 at pointer 3 with wall weekday 2. -/
theorem C2_weekday_write_witness :
    (write_time_register specTS 5 { initState with ptr := 3 }).wday_offset
      = (((((5 &&& 7 : Nat) : Int) - 1)
          - (specTS.getTimedate ({ initState with ptr := 3 } : DS1338Inner).offset).tm_wday
          + 7) % 7).toNat
    ∧ (write_time_register specTS 5 { initState with ptr := 3 }).offset
      = ({ initState with ptr := 3 } : DS1338Inner).offset :=
  C2_weekday_write specTS { initState with ptr := 3 } 5 rfl (by decide) (by decide)
    (by decide)

/-- C4: writing a weekday byte u in 1..7 at pointer 3 and then latching the
time again while the wall weekday is still w in 0..6 makes storage byte 3
read back exactly u. -/
theorem C4_weekday_roundtrip (ts : TimeSource) (s : DS1338Inner) (u : Nat) (w : Int)
    (hp : s.ptr = 3) (hu1 : 1 ≤ u) (hu7 : u ≤ 7)
    (hw : (ts.getTimedate s.offset).tm_wday = w) (hw0 : 0 ≤ w) (hw6 : w ≤ 6)
    (hrt : ts.timedateDiff (ts.getTimedate s.offset) = s.offset) :
    (capture_current_time ts (write_time_register ts u s)).nvram 3 = u := by
  rw [capture_nvram_3, wtr3_offset ts s u hp hrt, wtr3_wday_offset ts s u hp, hw]
  interval_cases u <;> interval_cases w <;> decide

/-- Witness for C4: weekday byte 5 written while the wall weekday is 2. -/
theorem C4_weekday_roundtrip_witness :
    (capture_current_time specTS
        (write_time_register specTS 5 { initState with ptr := 3 })).nvram 3 = 5 :=
  C4_weekday_roundtrip specTS { initState with ptr := 3 } 5 2 rfl (by decide)
    (by decide) (by decide) (by decide) (by decide) (by decide)

/-- Witness for C8 at the control-byte address 7. -/
theorem C8_capture_frame_witness :
    (capture_current_time specTS initState).nvram 7 = initState.nvram 7 ∧
    (capture_current_time specTS initState).ptr = initState.ptr ∧
    (capture_current_time specTS initState).offset = initState.offset ∧
    (capture_current_time specTS initState).wday_offset = initState.wday_offset ∧
    (capture_current_time specTS initState).addr_byte = initState.addr_byte :=
  C8_capture_frame specTS initState 7 (by decide)

/-- C7: after a start-for-send event, a first byte a in 8..63 sets the
pointer to a, closes the addressing phase and is acknowledged; the next
byte d is acknowledged and stored unmodified at storage[a]; re-pointing to
a and reading then returns d. -/
theorem C7_nvram_write_read (ts : TimeSource) (s : DS1338Inner) (a d : Nat)
    (ha1 : 8 ≤ a) (ha2 : a ≤ 63) :
    (send ts a (event ts I2CEvent.START_SEND s).1).2 = I2CResult.ACK ∧
    (send ts a (event ts I2CEvent.START_SEND s).1).1.ptr = a ∧
    (send ts a (event ts I2CEvent.START_SEND s).1).1.addr_byte = false ∧
    (send ts d (send ts a (event ts I2CEvent.START_SEND s).1).1).2 = I2CResult.ACK ∧
    (send ts d (send ts a (event ts I2CEvent.START_SEND s).1).1).1.nvram
        ⟨a, by omega⟩ = d ∧
    (recv ts (send ts a (event ts I2CEvent.START_SEND
        (send ts d (send ts a (event ts I2CEvent.START_SEND s).1).1).1).1).1).1 = d := by
  obtain ⟨off, wd, nv, p, ab⟩ := s
  have h64 : a < 64 := by omega
  have h7a : 7 ≤ a := by omega
  have ha64 : a &&& 63 = a := by
    rw [and63_eq_mod]
    omega
  have hstore :
      (send ts d (send ts a
          (event ts I2CEvent.START_SEND
            (⟨off, wd, nv, p, ab⟩ : DS1338Inner)).1).1).1.nvram ⟨a, h64⟩ = d := by
    show (send ts d (⟨off, wd, nv, a &&& 63, false⟩ : DS1338Inner)).1.nvram ⟨a, h64⟩ = d
    rw [ha64]
    simp only [send, Bool.false_eq_true, if_false]
    rw [if_neg (show ¬ ((⟨off, wd, nv, a, false⟩ : DS1338Inner).ptr < 7) by
          dsimp only
          omega),
        if_neg (show ¬ ((⟨off, wd, nv, a, false⟩ : DS1338Inner).ptr = 7) by
          dsimp only
          omega)]
    rw [inc_regptr_nvram_of_le ts _ ⟨a, h64⟩ h7a]
    simp only [write_nvram]
    rw [dif_pos (show ((⟨off, wd, nv, a, false⟩ : DS1338Inner).ptr < 64) from h64)]
    exact Function.update_same _ _ _
  refine ⟨rfl, ha64, rfl, rfl, hstore, ?_⟩
  rw [repoint_read ts a _ h64]
  exact hstore

/-- Witness for C7: pointer byte 9 then data byte 0x7F. -/
theorem C7_nvram_write_read_witness :
    (send specTS 9 (event specTS I2CEvent.START_SEND initState).1).2 = I2CResult.ACK ∧
    (send specTS 9 (event specTS I2CEvent.START_SEND initState).1).1.ptr = 9 ∧
    (send specTS 9 (event specTS I2CEvent.START_SEND initState).1).1.addr_byte = false ∧
    (send specTS 0x7F (send specTS 9
        (event specTS I2CEvent.START_SEND initState).1).1).2 = I2CResult.ACK ∧
    (send specTS 0x7F (send specTS 9
        (event specTS I2CEvent.START_SEND initState).1).1).1.nvram
        ⟨9, by omega⟩ = 0x7F ∧
    (recv specTS (send specTS 9 (event specTS I2CEvent.START_SEND
        (send specTS 0x7F (send specTS 9
          (event specTS I2CEvent.START_SEND initState).1).1).1).1).1).1 = 0x7F :=
  C7_nvram_write_read specTS initState 9 0x7F (by decide) (by decide)

/-- C9: every state reachable from the initial state by the exported
operations has its pointer in [0,63], and set_ptr stores its byte reduced
modulo 64. -/
theorem C9_ptr_in_bounds (ts : TimeSource) (s : DS1338Inner) :
    (Reach ts s → s.ptr < 64) ∧
    ∀ (d : Nat) (s2 : DS1338Inner), (set_ptr d s2).ptr = d % 64 := by
  constructor
  · intro h
    induction h with
    | init => decide
    | setp d hr ih =>
      show d &&& 63 < 64
      rw [and63_eq_mod]
      omega
    | adv hr ih =>
      rw [inc_regptr_ptr]
      omega
    | snd d hr ih => exact send_ptr_lt ts d _
    | rcv hr ih =>
      show (inc_regptr ts _).ptr < 64
      rw [inc_regptr_ptr]
      omega
    | evt e hr ih =>
      cases e with
      | START_RECV => exact ih
      | START_SEND => exact ih
      | FINISH => exact ih
      | NACK_EV => exact ih
    | rst hr ih =>
      show (0 : Nat) < 64
      decide
  · intro d s2
    exact and63_eq_mod d

/-- Witness for C9 at the initial state and a pointer byte of 200. -/
theorem C9_ptr_in_bounds_witness :
    initState.ptr < 64 ∧ (set_ptr 200 initState).ptr = 200 % 64 :=
  ⟨(C9_ptr_in_bounds specTS initState).1 Reach.init,
   (C9_ptr_in_bounds specTS initState).2 200 initState⟩

theorem decodeHour_mask {d1 d2 : Nat} (h : d1 &&& 0x7f = d2 &&& 0x7f) :
    decodeHour d1 = decodeHour d2 := by
  have h40 := and_sub_mask 0x7f 0x40 (by decide) h
  have h20 := and_sub_mask 0x7f 0x20 (by decide) h
  have h1f := and_sub_mask 0x7f 0x1f (by decide) h
  have h3f := and_sub_mask 0x7f 0x3f (by decide) h
  simp only [decodeHour, HOURS_12, HOURS_PM]
  rw [show (0x20 : Nat) - 1 = 0x1f by norm_num, show (0x40 : Nat) - 1 = 0x3f by norm_num,
      h40, h20, h1f, h3f]

/-- C10: write_time_register reads only a fixed low-bit slice of the data
byte per address (bits 0..6 for seconds, minutes and hours, bits 0..2 for
the weekday, bits 0..5 for the day of month, bits 0..4 for the month, the
whole byte for the year): two data bytes that agree on that slice produce
identical device states. -/
theorem C10_time_write_masks (ts : TimeSource) (s : DS1338Inner) (d1 d2 : Nat)
    (h1 : d1 < 256) (h2 : d2 < 256)
    (h : d1 &&& timeWriteMask s.ptr = d2 &&& timeWriteMask s.ptr) :
    write_time_register ts d1 s = write_time_register ts d2 s := by
  obtain ⟨off, wd, nv, p, ab⟩ := s
  dsimp only at h
  simp only [write_time_register]
  split
  · simp only [timeWriteMask] at h
    rw [h]
  · simp only [timeWriteMask] at h
    rw [h]
  · simp only [timeWriteMask] at h
    rw [decodeHour_mask h]
  · simp only [timeWriteMask] at h
    rw [h]
  · simp only [timeWriteMask] at h
    rw [h]
  · simp only [timeWriteMask] at h
    rw [h]
  · simp only [timeWriteMask] at h
    rw [and255_eq_mod, and255_eq_mod] at h
    have hd : d1 = d2 := by omega
    rw [hd]
  · rfl

/-- Witness for C10: bytes 0xFF and 0x7F at the seconds address. -/
theorem C10_time_write_masks_witness :
    write_time_register specTS 0xFF initState = write_time_register specTS 0x7F initState :=
  C10_time_write_masks specTS initState 0xFF 0x7F (by decide) (by decide) (by decide)

end DS1338
